import Mathlib

/-!
# Verification of the intelligent-finance chatbot and import pipeline

Shallow embedding of the algorithmic core of the repository:

* the date-range inference, intent classification and local insight
  computation of the chatbot query route (`routes/chatbot.ts`),
* the AI-fallback fetch/retry logic of the same route,
* the heuristic receipt line-scan, the tabular statement parser, the
  AI-receipt analysis/confirmation of the upload routes (`routes/upload.ts`).

Modelling conventions:

* JavaScript `Date` values are epoch milliseconds (`Int`); the local time
  zone is modelled as UTC.  The legacy two-digit-year adjustment of the
  `Date(year, month, day)` constructor is not modelled (the code never
  constructs years below 100: the explicit-date branch guards `c >= 100`
  and all other constructions reuse `getFullYear()` of the wall clock).
* JavaScript numbers are modelled as exact rationals (`ℚ`); none of the
  verified properties depends on binary floating-point rounding.
* Strings are processed as `List Char`; the ASCII fragment of
  `toLowerCase`/`toUpperCase`/`\s` is modelled, which covers every
  pattern and keyword appearing in the code.
* The persistence layer is a list of `Transaction` rows; each route
  handler is embedded as a pure function that returns, next to its HTTP
  response data, the list of rows it persists.
-/

namespace JsDate

/-- Milliseconds per day. -/
def msPerDay : Int := 86400000

/-- Day offset (from March 1) of the first day of the month `mp`
(months counted from March, `mp ∈ [0,11]`), as in the standard
civil-from-days algorithm used to model the proleptic Gregorian
calendar of JavaScript `Date`. -/
def doyOfMp (mp : Int) : Int := (153 * mp + 2) / 5

/-- Day number (days since 1970-01-01) of the civil date `y-m-d`
(month `1..12`; out-of-range `d` rolls over, as JS `Date` does). -/
def daysFromCivil (y m d : Int) : Int :=
  let y' := if m ≤ 2 then y - 1 else y
  let mp := if m ≤ 2 then m + 9 else m - 3
  let era := y' / 400
  let yoe := y' - era * 400
  let doe := yoe * 365 + yoe / 4 - yoe / 100 + doyOfMp mp + (d - 1)
  era * 146097 + doe - 719468

/-- A civil (calendar) date: year, month `1..12`, day `1..31`. -/
structure Civil where
  year : Int
  month : Int
  day : Int
deriving DecidableEq, Repr

/-- Civil date of a day number (inverse of `daysFromCivil`). -/
def civilFromDays (z : Int) : Civil :=
  let z' := z + 719468
  let era := z' / 146097
  let doe := z' - era * 146097
  let yoe := (doe - doe / 1460 + doe / 36524 - doe / 146096) / 365
  let doy := doe - (365 * yoe + yoe / 4 - yoe / 100)
  let mp := (5 * doy + 2) / 153
  let d := doy - doyOfMp mp + 1
  let m := if mp < 10 then mp + 3 else mp - 9
  ⟨era * 400 + yoe + (if m ≤ 2 then 1 else 0), m, d⟩

/-- `new Date(y, monthIndex, d, h, mi, s, ms)`: month index is 0-based and
normalized into the year, the remaining fields are added as offsets
(ECMA-262 `MakeDay`/`MakeTime`). -/
def mkDate (y mIdx d h mi s ms : Int) : Int :=
  let months := y * 12 + mIdx
  (daysFromCivil (months / 12) (months % 12 + 1) d) * msPerDay
    + h * 3600000 + mi * 60000 + s * 1000 + ms

/-- Day number of an epoch-milliseconds instant. -/
def dayNumber (t : Int) : Int := t / msPerDay

/-- Time of day (milliseconds since local midnight). -/
def timeOfDay (t : Int) : Int := t % msPerDay

/-- Civil date of an instant. -/
def civil (t : Int) : Civil := civilFromDays (dayNumber t)

/-- JS `getFullYear()`. -/
def getFullYear (t : Int) : Int := (civil t).year

/-- JS `getMonth()` (0-based month index). -/
def getMonth (t : Int) : Int := (civil t).month - 1

/-- JS `getDate()` (day of month). -/
def getDate (t : Int) : Int := (civil t).day

/-- JS `getHours()`. -/
def getHours (t : Int) : Int := (timeOfDay t) / 3600000

/-- JS `getMinutes()`. -/
def getMinutes (t : Int) : Int := ((timeOfDay t) % 3600000) / 60000

/-- JS `getSeconds()`. -/
def getSeconds (t : Int) : Int := ((timeOfDay t) % 60000) / 1000

/-- JS `getMilliseconds()`. -/
def getMilliseconds (t : Int) : Int := (timeOfDay t) % 1000

/-- JS `d.setDate(n)`: replaces the day of month (with rollover),
keeping the time of day. -/
def setDate (t n : Int) : Int :=
  mkDate (getFullYear t) (getMonth t) n
    (getHours t) (getMinutes t) (getSeconds t) (getMilliseconds t)

/-- Day number of the first day of absolute month `n`
(`n = year * 12 + monthIndex`).  `mkDate` is expressed through it. -/
def monthFirstDay (n : Int) : Int :=
  daysFromCivil (n / 12) (n % 12 + 1) 1

end JsDate

/-! ## ASCII string and mini-regex utilities

The regular expressions appearing in the routes are embedded as explicit
matching functions on `List Char`, with JavaScript semantics: leftmost
match, alternatives tried left to right, greedy bounded repetition with
backtracking.  `\s` is modelled by its ASCII fragment, `\w`/`\b` by
`[A-Za-z0-9_]` word characters. -/

/-- ASCII fragment of JS `\s`. -/
def isJsSpace (c : Char) : Bool :=
  c = ' ' || c = '\t' || c = '\n' || c = '\r' || c = '\x0b' || c = '\x0c'

/-- JS `String.prototype.toLowerCase` (ASCII fragment). -/
def lowerList (cs : List Char) : List Char := cs.map Char.toLower

/-- JS `String.prototype.toUpperCase` (ASCII fragment). -/
def upperList (cs : List Char) : List Char := cs.map Char.toUpper

/-- Match a literal string at the head; returns the rest on success. -/
def matchLit : List Char → List Char → Option (List Char)
  | [], cs => some cs
  | _ :: _, [] => none
  | n :: ns, c :: cs => if c = n then matchLit ns cs else none

/-- `\s*` (greedy; deterministic whenever the pattern continues with a
non-space literal). -/
def dropSpaces (cs : List Char) : List Char := cs.dropWhile (isJsSpace ·)

/-- `\s+` followed by greedy absorption of the remaining spaces. -/
def matchSpaces1 : List Char → Option (List Char)
  | [] => none
  | c :: cs => if isJsSpace c then some (dropSpaces cs) else none

/-- Test a position predicate at every suffix (regex search without anchor). -/
def scanTest (p : List Char → Bool) : List Char → Bool
  | [] => p []
  | c :: cs => p (c :: cs) || scanTest p cs

/-- JS `String.prototype.includes`. -/
def containsSub (hay needle : List Char) : Bool :=
  scanTest (fun cs => (matchLit needle cs).isSome) hay

/-- First `some` in a list of attempts (regex alternation order). -/
def firstSome {α : Type} : List (Option α) → Option α
  | [] => none
  | some a :: _ => some a
  | none :: rest => firstSome rest

/-! ### Phrase tests of `parseUserDateRange` and `detectIntent` -/

/-- `/(today|todays|to\s*day)/` at one position. -/
def todayAt (cs : List Char) : Bool :=
  (matchLit "today".toList cs).isSome || (matchLit "todays".toList cs).isSome ||
    (((matchLit "to".toList cs).map dropSpaces).bind (matchLit "day".toList)).isSome

/-- `/(yesterday|yester\s*day)/` at one position. -/
def yesterdayAt (cs : List Char) : Bool :=
  (matchLit "yesterday".toList cs).isSome ||
    (((matchLit "yester".toList cs).map dropSpaces).bind (matchLit "day".toList)).isSome

/-- `a\s*b` at one position. -/
def litSpacesLitAt (a b : String) (cs : List Char) : Bool :=
  (((matchLit a.toList cs).map dropSpaces).bind (matchLit b.toList)).isSome

/-- `a\s+b` at one position (with the trailing spaces absorbed). -/
def litSp1LitAt (a b : String) (cs : List Char) : Bool :=
  (((matchLit a.toList cs).bind matchSpaces1).bind (matchLit b.toList)).isSome

def testToday (m : List Char) : Bool := scanTest todayAt m
def testYesterday (m : List Char) : Bool := scanTest yesterdayAt m
def testLastWeek (m : List Char) : Bool := scanTest (litSpacesLitAt "last" "week") m
def testThisMonth (m : List Char) : Bool :=
  scanTest (fun cs => litSpacesLitAt "this" "month" cs || litSpacesLitAt "current" "month" cs) m
def testLastMonth (m : List Char) : Bool := scanTest (litSpacesLitAt "last" "month") m
def testThisYear (m : List Char) : Bool :=
  scanTest (fun cs => litSpacesLitAt "this" "year" cs || litSpacesLitAt "current" "year" cs) m
def testLastYear (m : List Char) : Bool := scanTest (litSpacesLitAt "last" "year") m

/-! ### The explicit-date token regex

`/(\b\d{1,2}[\/\-]\d{1,2}[\/\-]\d{2,4}\b|\b\d{4}[\-\/]\d{1,2}[\-\/]\d{1,2}\b)/` -/

def isSepCh (c : Char) : Bool := c = '/' || c = '-'

def isWordCh (c : Char) : Bool := c.isAlphanum || c = '_'

/-- `\b` in front of what follows (the preceding character being a word
character is handled by the scanner). -/
def boundaryAfter : List Char → Bool
  | [] => true
  | c :: _ => !(isWordCh c)

/-- Take exactly `n` digits. -/
def takeDigitsN : Nat → List Char → Option (List Char × List Char)
  | 0, cs => some ([], cs)
  | _ + 1, [] => none
  | n + 1, c :: cs =>
    if c.isDigit then (takeDigitsN n cs).map (fun p => (c :: p.1, p.2)) else none

def matchSep : List Char → Option (Char × List Char)
  | [] => none
  | c :: cs => if isSepCh c then some (c, cs) else none

/-- `\d{1,2}[\/\-]\d{1,2}[\/\-]\d{2,4}\b` with PCRE backtracking order. -/
def matchDateAlt1 (cs : List Char) : Option (List Char) :=
  firstSome <| ([2, 1].map fun n1 =>
    firstSome <| ([2, 1].map fun n2 =>
      firstSome <| ([4, 3, 2].map fun n3 => do
        let (d1, r1) ← takeDigitsN n1 cs
        let (s1, r2) ← matchSep r1
        let (d2, r3) ← takeDigitsN n2 r2
        let (s2, r4) ← matchSep r3
        let (d3, r5) ← takeDigitsN n3 r4
        if boundaryAfter r5 then some (d1 ++ s1 :: d2 ++ s2 :: d3) else none)))

/-- `\d{4}[\-\/]\d{1,2}[\-\/]\d{1,2}\b` with PCRE backtracking order. -/
def matchDateAlt2 (cs : List Char) : Option (List Char) :=
  firstSome <| ([2, 1].map fun n2 =>
    firstSome <| ([2, 1].map fun n3 => do
      let (d1, r1) ← takeDigitsN 4 cs
      let (s1, r2) ← matchSep r1
      let (d2, r3) ← takeDigitsN n2 r2
      let (s2, r4) ← matchSep r3
      let (d3, r5) ← takeDigitsN n3 r4
      if boundaryAfter r5 then some (d1 ++ s1 :: d2 ++ s2 :: d3) else none))

/-- Leftmost match of the explicit-date regex (`message.match(...)`):
the boolean argument records whether the previous character is a word
character (for the leading `\b`). -/
def findDateTokenAux : Bool → List Char → Option (List Char)
  | _, [] => none
  | prevWord, c :: rest =>
    match (if prevWord then none
           else (matchDateAlt1 (c :: rest)).or (matchDateAlt2 (c :: rest))) with
    | some tok => some tok
    | none => findDateTokenAux (isWordCh c) rest

def findDateToken (cs : List Char) : Option (List Char) := findDateTokenAux false cs

/-- Anchored test `/^\d{4}[\-\/]\d{1,2}[\-\/]\d{1,2}$/`. -/
def isoShaped (tok : List Char) : Bool :=
  (firstSome <| ([2, 1].map fun n2 =>
    firstSome <| ([2, 1].map fun n3 => do
      let (_, r1) ← takeDigitsN 4 tok
      let (_, r2) ← matchSep r1
      let (_, r3) ← takeDigitsN n2 r2
      let (_, r4) ← matchSep r3
      let (_, r5) ← takeDigitsN n3 r4
      if r5 = [] then some () else none))).isSome

/-- JS `split` on the character class of `'/'` and `'-'`. -/
def splitSeps : List Char → List (List Char)
  | [] => [[]]
  | c :: cs =>
    if isSepCh c then [] :: splitSeps cs
    else
      match splitSeps cs with
      | t :: ts => (c :: t) :: ts
      | [] => [[c]]

/-- JS `parseInt(s, 10)` restricted to the inputs arising here (pieces of
a matched date token, hence runs of digits): the value of the leading
digit run, `none` (`NaN`) if there is none. -/
def jsParseIntDigits (cs : List Char) : Option Int :=
  match cs.takeWhile (·.isDigit) with
  | [] => none
  | ds => some (ds.foldl (fun a c => a * 10 + (c.toNat - 48 : Int)) 0)

/-! ## Date-range inference (`parseUserDateRange`, chatbot route) -/

/-- `toStartOfDay` of the chatbot route. -/
def toStartOfDay (d : Int) : Int :=
  JsDate.mkDate (JsDate.getFullYear d) (JsDate.getMonth d) (JsDate.getDate d) 0 0 0 0

/-- `toEndOfDay` of the chatbot route. -/
def toEndOfDay (d : Int) : Int :=
  JsDate.mkDate (JsDate.getFullYear d) (JsDate.getMonth d) (JsDate.getDate d) 23 59 59 999

/-- The result object of `parseUserDateRange` (`{ start?, end?, kind? }`);
the `end` field is called `stop` (`end` is a Lean keyword). -/
structure DateRange where
  start : Option Int
  stop : Option Int
  kind : Option String
deriving DecidableEq, Repr

def isLeap (y : Int) : Bool := (y % 4 = 0 && !(y % 100 = 0)) || y % 400 = 0

def daysInMonthOf (y m : Int) : Int :=
  if m = 2 then (if isLeap y then 29 else 28)
  else if m = 4 || m = 6 || m = 9 || m = 11 then 30
  else 31

/-- `new Date(string)` on the `yyyy-m-d` / `yyyy/m/d` shaped tokens this
code feeds it: the components must form a valid calendar date, the value
is its midnight.  (`none` models an Invalid Date.  V8's legacy-parser
corner cases — e.g. day-of-month overflow with `/` separators — are not
modelled; no verified property evaluates the parser on such inputs.) -/
def jsDateFromString (s : String) : Option Int :=
  match (splitSeps s.toList).map jsParseIntDigits with
  | [some y, some m, some d] =>
    if 1 ≤ m ∧ m ≤ 12 ∧ 1 ≤ d ∧ d ≤ daysInMonthOf y m then
      some (JsDate.daysFromCivil y m d * JsDate.msPerDay)
    else none
  | _ => none

/-- Lines 70–78 of the chatbot route: a slash/dash token split into
numeric parts `[a, b, c]`; with a 3-plus-digit year `c`, day-first is
chosen iff `a > 12`; `new Date(c, month - 1, day)` never yields an
Invalid Date, so the result is always `some` when `c ≥ 100`. -/
def explicitDateFromParts : List (Option Int) → Option Int
  | [some a, some b, some c] =>
    if c ≥ 100 then
      let dayFirst := a > 12
      let day := if dayFirst then a else b
      let month := if dayFirst then b else a
      some (JsDate.mkDate c (month - 1) day 0 0 0 0)
    else none
  | _ => none

/-- `parseUserDateRange(message, now)` of the chatbot route. -/
def parseUserDateRange (message : String) (now : Int) : DateRange :=
  let m := lowerList message.toList
  if testToday m then
    ⟨some (toStartOfDay now), some (toEndOfDay now), some "today"⟩
  else if testYesterday m then
    let y := JsDate.setDate now (JsDate.getDate now - 1)
    ⟨some (toStartOfDay y), some (toEndOfDay y), some "yesterday"⟩
  else if testLastWeek m then
    ⟨some (JsDate.setDate now (JsDate.getDate now - 7)), some (toEndOfDay now),
      some "last_week"⟩
  else if testThisMonth m then
    ⟨some (JsDate.mkDate (JsDate.getFullYear now) (JsDate.getMonth now) 1 0 0 0 0),
      some (toEndOfDay now), some "this_month"⟩
  else if testLastMonth m then
    ⟨some (JsDate.mkDate (JsDate.getFullYear now) (JsDate.getMonth now - 1) 1 0 0 0 0),
      some (JsDate.mkDate (JsDate.getFullYear now) (JsDate.getMonth now) 0 23 59 59 999),
      some "last_month"⟩
  else if testThisYear m then
    ⟨some (JsDate.mkDate (JsDate.getFullYear now) 0 1 0 0 0 0),
      some (JsDate.mkDate (JsDate.getFullYear now) 11 31 23 59 59 999),
      some "this_year"⟩
  else if testLastYear m then
    ⟨some (JsDate.mkDate (JsDate.getFullYear now - 1) 0 1 0 0 0 0),
      some (JsDate.mkDate (JsDate.getFullYear now - 1) 11 31 23 59 59 999),
      some "last_year"⟩
  else
    match findDateToken m with
    | none => ⟨none, none, none⟩
    | some raw =>
      let d : Option Int :=
        if isoShaped raw then jsDateFromString (String.mk raw)
        else explicitDateFromParts ((splitSeps raw).map jsParseIntDigits)
      match d with
      | some dv => ⟨some (toStartOfDay dv), some (toEndOfDay dv), some "specific_day"⟩
      | none => ⟨none, none, none⟩

/-! ## Intent classification (`categoryAliases`, `detectIntent`) -/

/-- The `categoryAliases` table, in object-literal insertion order
(`Object.keys` iterates string keys in that order). -/
def categoryAliases : List (String × String) :=
  [("dining", "Dining"),
   ("restaurant", "Dining"),
   ("food", "Dining"),
   ("groceries", "Groceries"),
   ("grocery", "Groceries"),
   ("fuel", "Fuel"),
   ("gas", "Fuel"),
   ("transportation", "Transportation"),
   ("taxi", "Transportation"),
   ("uber", "Transportation"),
   ("entertainment", "Entertainment"),
   ("health", "Health"),
   ("shopping", "Shopping"),
   ("utilities", "Utilities"),
   ("salary", "Salary"),
   ("freelance", "Freelance")]

inductive Intent
  | count_category (category : String)
  | sum_category (category : String)
  | sum_total
  | budget_survivability
  | recommendations
deriving DecidableEq, Repr

/-- A sequence of literal words separated by `\s+`. -/
def wordsSp1At : List String → List Char → Option (List Char)
  | [], cs => some cs
  | [w], cs => matchLit w.toList cs
  | w :: ws, cs => ((matchLit w.toList cs).bind matchSpaces1).bind (wordsSp1At ws)

/-- `/how\s+many\s+times/`. -/
def testHowManyTimes (m : List Char) : Bool :=
  scanTest (fun cs => (wordsSp1At ["how", "many", "times"] cs).isSome) m

/-- `/how\s+much\s+did\s+i\s+spend/`. -/
def testHowMuchSpend (m : List Char) : Bool :=
  scanTest (fun cs => (wordsSp1At ["how", "much", "did", "i", "spend"] cs).isSome) m

/-- `/(survive|within\s+my\s+budget|under\s+budget|over\s+budget|can\s+i\s+make\s+it\s+this\s+month)/`. -/
def testSurvivability (m : List Char) : Bool :=
  scanTest (fun cs =>
    (matchLit "survive".toList cs).isSome ||
    (wordsSp1At ["within", "my", "budget"] cs).isSome ||
    (wordsSp1At ["under", "budget"] cs).isSome ||
    (wordsSp1At ["over", "budget"] cs).isSome ||
    (wordsSp1At ["can", "i", "make", "it", "this", "month"] cs).isSome) m

/-- `/(recommend|suggest|advice|how\s+to\s+save|tips)/`. -/
def testRecommend (m : List Char) : Bool :=
  scanTest (fun cs =>
    (matchLit "recommend".toList cs).isSome ||
    (matchLit "suggest".toList cs).isSome ||
    (matchLit "advice".toList cs).isSome ||
    (wordsSp1At ["how", "to", "save"] cs).isSome ||
    (matchLit "tips".toList cs).isSome) m

/-- First alias of the table contained in the message
(`for (const key of Object.keys(categoryAliases)) if (m.includes(key)) ...`). -/
def findAlias (m : List Char) : Option (String × String) :=
  categoryAliases.find? (fun kv => containsSub m kv.1.toList)

/-- `detectIntent(message)` of the chatbot route.  A matched
`how many times` phrase without any alias in the message falls through
to the later checks, as in the source. -/
def detectIntent (message : String) : Option Intent :=
  let m := lowerList message.toList
  (if testHowManyTimes m then
      (findAlias m).map (fun kv => Intent.count_category kv.2)
    else none).or <|
  (if testHowMuchSpend m then
      some (match findAlias m with
            | some kv => Intent.sum_category kv.2
            | none => Intent.sum_total)
    else none).or <|
  (if testSurvivability m then some .budget_survivability else none).or
  (if testRecommend m then some .recommendations else none)

/-! ## Transaction store and the Local Insight Engine -/

inductive TransactionType
  | INCOME
  | EXPENSE
deriving DecidableEq, Repr

/-- A persisted Transaction row. -/
structure Transaction where
  userId : String
  type : TransactionType
  amount : ℚ
  category : String
  description : String
  date : Int
deriving DecidableEq, Repr

/-- The prisma `where` object built by the local-intent branch. -/
structure TxWhere where
  userId : String
  dateRange : Option (Int × Int)
  category : Option String
deriving DecidableEq, Repr

def txMatches (w : TxWhere) (t : Transaction) : Bool :=
  decide (t.userId = w.userId) &&
  (match w.dateRange with
   | some (s, e) => decide (s ≤ t.date) && decide (t.date ≤ e)
   | none => true) &&
  (match w.category with
   | some c => decide (t.category = c)
   | none => true)

def sumAmounts (l : List Transaction) : ℚ := (l.map (·.amount)).sum

/-- `groupBy({by: ['type'], where, _sum: {amount}})` followed by
`rows.find(r => r.type === 'EXPENSE')?._sum.amount ?? 0`: the sum of the
amounts of the matching EXPENSE rows (`0` when there are none, matching
the `?? 0` default for an absent group). -/
def expenseSum (w : TxWhere) (store : List Transaction) : ℚ :=
  sumAmounts ((store.filter (txMatches w)).filter
    (fun t => decide (t.type = TransactionType.EXPENSE)))

/-- `prisma.transaction.count({ where })`. -/
def countWhere (w : TxWhere) (store : List Transaction) : Nat :=
  (store.filter (txMatches w)).length

/-- `kind.replace('_', ' ')` (JS `replace` with a string pattern
replaces the first occurrence). -/
def replaceFirstUnderscore : List Char → List Char
  | [] => []
  | c :: cs => if c = '_' then ' ' :: cs else c :: replaceFirstUnderscore cs

/-- `inferred.kind ? inferred.kind.replace('_', ' ') : 'all time'`. -/
def rangeLabelOf (r : DateRange) : String :=
  match r.kind with
  | some k => String.mk (replaceFirstUnderscore k.toList)
  | none => "all time"

/-- The `where` object of the local-intent branch (lines 283–285):
date filter only when both bounds were inferred, category filter only
for the category intents. -/
def intentWhere (intent : Intent) (inferred : DateRange) (userId : String) : TxWhere :=
  { userId := userId
    dateRange := match inferred.start, inferred.stop with
      | some s, some e => some (s, e)
      | _, _ => none
    category := match intent with
      | .count_category c => some c
      | .sum_category c => some c
      | _ => none }

/-- The quantities computed by the shared
`budget_survivability`/`recommendations` block (lines 308–328).
`spent` is the aggregate of the user's EXPENSE rows over the current
calendar month `[first day 00:00, last day 23:59:59.999]`. -/
structure BudgetStats where
  spent : ℚ
  remaining : ℚ
  daysInMonth : Int
  dayOfMonth : Int
  daysLeft : Int
  avgPerDaySoFar : ℚ
  neededPerDay : ℚ
  canSurvive : Bool
deriving DecidableEq, Repr

def monthlyStats (now : Int) (store : List Transaction) (userId : String)
    (monthlyBudget : ℚ) : BudgetStats :=
  let start := JsDate.mkDate (JsDate.getFullYear now) (JsDate.getMonth now) 1 0 0 0 0
  let stop := JsDate.mkDate (JsDate.getFullYear now) (JsDate.getMonth now + 1) 0 23 59 59 999
  let spent := sumAmounts (store.filter (fun t =>
    decide (t.userId = userId) && decide (t.type = TransactionType.EXPENSE) &&
    decide (start ≤ t.date) && decide (t.date ≤ stop)))
  let remaining := max 0 (monthlyBudget - spent)
  let daysInMonth := JsDate.getDate
    (JsDate.mkDate (JsDate.getFullYear now) (JsDate.getMonth now + 1) 0 0 0 0 0)
  let dayOfMonth := JsDate.getDate now
  let daysLeft := max 0 (daysInMonth - dayOfMonth)
  let avgPerDaySoFar := if 0 < dayOfMonth then spent / (dayOfMonth : ℚ) else 0
  let neededPerDay := if 0 < daysLeft then remaining / (daysLeft : ℚ) else 0
  let canSurvive := if 0 < monthlyBudget then decide (spent ≤ monthlyBudget) else false
  ⟨spent, remaining, daysInMonth, dayOfMonth, daysLeft, avgPerDaySoFar, neededPerDay,
    canSurvive⟩

/-- One heuristic tip of the `recommendations` reply; each constructor
carries exactly the data interpolated into the corresponding sentence. -/
inductive Tip
  | targetPerDay (neededPerDay : ℚ) (daysLeft : Int)
  | avgObservation (avgPerDaySoFar : ℚ)
  | reviewCategories
  | delayPurchases
deriving DecidableEq, Repr

/-- A local (non-AI) reply of the query route; each constructor carries
exactly the data interpolated into the reply string of that branch (the
`transactions` field of the response is `null` in every local branch).
`budgetNoBudget` is the «You haven't set a monthly budget yet. So far
this month you've spent …» branch: it reports the spent amount only and
contains no survivability verdict. -/
inductive LocalReply
  | countReply (category : String) (count : Nat) (rangeLabel : String)
  | sumCategoryReply (category : String) (sum : ℚ) (rangeLabel : String)
  | sumTotalReply (sum : ℚ) (rangeLabel : String)
  | budgetVerdict (spent monthlyBudget : ℚ) (canSurvive : Bool)
      (neededPerDay : ℚ) (daysLeft : Int)
  | budgetNoBudget (spent : ℚ)
  | recommendationsReply (tips : List Tip)
deriving DecidableEq, Repr

/-- The local-intent branch of the query handler (lines 281–351). -/
def localAnswer (intent : Intent) (message : String) (now : Int)
    (store : List Transaction) (userId : String) (monthlyBudget : ℚ) : LocalReply :=
  let inferred := parseUserDateRange message now
  let w := intentWhere intent inferred userId
  let rangeLabel := rangeLabelOf inferred
  match intent with
  | .count_category c => .countReply c (countWhere w store) rangeLabel
  | .sum_category c => .sumCategoryReply c (expenseSum w store) rangeLabel
  | .sum_total => .sumTotalReply (expenseSum w store) rangeLabel
  | .budget_survivability =>
    let st := monthlyStats now store userId monthlyBudget
    if 0 < monthlyBudget then
      .budgetVerdict st.spent monthlyBudget st.canSurvive st.neededPerDay st.daysLeft
    else
      .budgetNoBudget st.spent
  | .recommendations =>
    let st := monthlyStats now store userId monthlyBudget
    .recommendationsReply
      ((if 0 < monthlyBudget then [Tip.targetPerDay st.neededPerDay st.daysLeft] else []) ++
       (if 0 < st.avgPerDaySoFar then [Tip.avgObservation st.avgPerDaySoFar] else []) ++
       [Tip.reviewCategories, Tip.delayPurchases])

/-! ## The query handler and the AI fallback (`POST /query`) -/

/-- An HTTP response of the external AI service; `ok` is the fetch
`Response.ok` predicate (status in the 2xx range). -/
structure FetchResult where
  status : Nat
deriving DecidableEq, Repr

def fetchOk (r : FetchResult) : Bool := decide (200 ≤ r.status) && decide (r.status ≤ 299)

/-- Lines 354–374: the first `fetch`, followed by exactly one retry when
(and only when) the first response is a non-ok 503; returns the final
response together with the number of requests issued. -/
def aiFetchRetry (oracle : Nat → FetchResult) : FetchResult × Nat :=
  let r0 := oracle 0
  if !(fetchOk r0) && decide (r0.status = 503) then (oracle 1, 2) else (r0, 1)

/-- Outcome of `POST /query`.  `aiSuccess` marks the handler proceeding
past the `response.ok` check with the final response (the subsequent
parsing of the model output, lines 382–398, is outside the verified
claims); `aiFailed` is the fatal `500 'AI request failed'`. -/
inductive QueryOutcome
  | badRequest
  | configError
  | localReply (r : LocalReply)
  | aiSuccess (r : FetchResult)
  | aiFailed
deriving DecidableEq, Repr

/-- `POST /query` (lines 203–403), as (outcome, number of AI requests).
The context assembly and range pre-computation (lines 210–239) are
read-only store queries feeding only the AI prompt, so they are not part
of the observable outcome modelled here.  Note the order: the
`GEMINI_API_KEY` check (lines 241–244) runs before the local-intent
branch (line 280). -/
def queryHandler (keyConfigured : Bool) (oracle : Nat → FetchResult)
    (message : String) (now : Int) (store : List Transaction)
    (userId : String) (monthlyBudget : ℚ) : QueryOutcome × Nat :=
  if message = "" then (.badRequest, 0)
  else if !keyConfigured then (.configError, 0)
  else
    match detectIntent message with
    | some intent =>
      (.localReply (localAnswer intent message now store userId monthlyBudget), 0)
    | none =>
      let fr := aiFetchRetry oracle
      if !(fetchOk fr.1) then (.aiFailed, fr.2) else (.aiSuccess fr.1, fr.2)

/-! ## Document extraction pipeline (upload route)

The OCR / PDF text extraction is an external collaborator; the handlers
are modelled from the extracted text onward.  Each handler model returns
its response data together with the list of `Transaction` rows it
persists. -/

/-- Generic split at every character satisfying `p` (JS `split` on a
character class; empty pieces are kept). -/
def splitWhen (p : Char → Bool) : List Char → List (List Char)
  | [] => [[]]
  | c :: cs =>
    if p c then [] :: splitWhen p cs
    else
      match splitWhen p cs with
      | t :: ts => (c :: t) :: ts
      | [] => [[c]]

/-- JS `String.prototype.trim` (ASCII whitespace fragment). -/
def trimList (cs : List Char) : List Char :=
  ((cs.dropWhile (isJsSpace ·)).reverse.dropWhile (isJsSpace ·)).reverse

/-- `text.split(/\r?\n/).map(l => l.trim()).filter(Boolean)`: a `\r`
immediately before the `\n` is removed by the trim. -/
def linesOf (text : String) : List (List Char) :=
  ((splitWhen (· = '\n') text.toList).map trimList).filter (· ≠ [])

/-- Maximal run of decimal digits at the head. -/
def takeDigitsRun : List Char → List Char × List Char
  | [] => ([], [])
  | c :: cs =>
    if c.isDigit then
      match takeDigitsRun cs with
      | (d, r) => (c :: d, r)
    else ([], c :: cs)

/-- Digit-list value. -/
def digitsValN (ds : List Char) : ℕ :=
  ds.foldl (fun a c => a * 10 + (c.toNat - 48)) 0

/-- A finite JS number written in decimal: value `num / 10 ^ scale`.
The decimal strings parsed by this code are represented exactly; the
sign of the value is the sign of `num` (`JsNum.toRat_pos` below). -/
structure JsNum where
  num : Int
  scale : ℕ
deriving DecidableEq, Repr

/-- The rational value of a decimal JS number. -/
def JsNum.toRat (x : JsNum) : ℚ := (x.num : ℚ) / 10 ^ x.scale

/-- JS `parseFloat` on the strings arising in this code (outputs of the
`[^0-9.\-]` cleaning and regex capture groups: sign, digits, dot):
`none` models `NaN`.  Exponents, `Infinity` and leading whitespace never
occur on these inputs and are not modelled. -/
def jsParseFloatList (cs : List Char) : Option JsNum :=
  let (sign, cs1) : Int × List Char :=
    match cs with
    | '-' :: r => (-1, r)
    | '+' :: r => (1, r)
    | _ => (1, cs)
  match takeDigitsRun cs1 with
  | ([], '.' :: r) =>
    (match takeDigitsRun r with
     | ([], _) => none
     | (fs, _) => some ⟨sign * digitsValN fs, fs.length⟩)
  | ([], _) => none
  | (ds, '.' :: r) =>
    let fr := takeDigitsRun r
    some ⟨sign * (digitsValN ds * 10 ^ fr.1.length + digitsValN fr.1), fr.1.length⟩
  | (ds, _) => some ⟨sign * digitsValN ds, 0⟩

/-- Capture group `([0-9]+(?:\.[0-9]{2})?)` when nothing of the pattern
follows it: maximal digit run, then `.dd` if present. -/
def matchNumGroup (cs : List Char) : Option (List Char) :=
  match takeDigitsRun cs with
  | ([], _) => none
  | (ds, rest) =>
    match rest with
    | '.' :: a :: b :: _ =>
      if a.isDigit && b.isDigit then some (ds ++ '.' :: a :: [b]) else some ds
    | _ => some ds

/-- Case-insensitive literal match. -/
def matchLitCI : List Char → List Char → Option (List Char)
  | [], cs => some cs
  | _ :: _, [] => none
  | n :: ns, c :: cs => if c.toLower = n.toLower then matchLitCI ns cs else none

/-- Pattern 1, `/(?:\$)?([0-9]+(?:\.[0-9]{2})?)/`, at one position. -/
def matchP1At (cs : List Char) : Option (List Char) :=
  match cs with
  | '$' :: rest => matchNumGroup rest
  | _ => matchNumGroup cs

/-- Pattern 2, `/([0-9]+(?:\.[0-9]{2})?)\s*(?:USD|usd)/`, at one
position.  The group is followed by more pattern, so the optional `.dd`
backtracks; a shortened digit run always leaves a digit in front of
`\s*(?:USD|usd)` and can never succeed, so only the maximal run is
tried. -/
def matchP2At (cs : List Char) : Option (List Char) :=
  match takeDigitsRun cs with
  | ([], _) => none
  | (ds, rest) =>
    let tryCont : List Char → List Char → Option (List Char) := fun g r =>
      let r' := dropSpaces r
      if (matchLit "USD".toList r').isSome || (matchLit "usd".toList r').isSome then
        some g
      else none
    match rest with
    | '.' :: a :: b :: r2 =>
      if a.isDigit && b.isDigit then
        (tryCont (ds ++ '.' :: a :: [b]) r2).or (tryCont ds ('.' :: a :: b :: r2))
      else tryCont ds ('.' :: a :: b :: r2)
    | r => tryCont ds r

/-- Patterns 3 and 4, `/total[:\s]*(?:\$)?(...)/i` and
`/amount[:\s]*(?:\$)?(...)/i`, at one position. -/
def matchKeyedAt (key : String) (cs : List Char) : Option (List Char) :=
  (matchLitCI key.toList cs).bind fun r =>
    let r1 := r.dropWhile (fun c => c = ':' || isJsSpace c)
    match r1 with
    | '$' :: rest => matchNumGroup rest
    | _ => matchNumGroup r1

/-- Leftmost match of a positional matcher (`String.prototype.match`). -/
def scanFirst {α : Type} (p : List Char → Option α) : List Char → Option α
  | [] => p []
  | c :: cs => (p (c :: cs)).or (scanFirst p cs)

/-- The `for (const pattern of amountPatterns)` loop: each pattern in
order, leftmost match, accepted only when the parsed amount is a finite
positive number (`isFinite` always holds for these digit groups;
`amount > 0` is decided on the exact decimal as `0 < num`, which is
equivalent by `JsNum.toRat_pos`), otherwise the next pattern is tried. -/
def amountFromPatterns (line : List Char) : Option JsNum :=
  let accept : Option (List Char) → Option JsNum := fun o =>
    match o.bind jsParseFloatList with
    | some v => if 0 < v.num then some v else none
    | none => none
  (accept (scanFirst matchP1At line)).or <|
  (accept (scanFirst matchP2At line)).or <|
  (accept (scanFirst (matchKeyedAt "total") line)).or
  (accept (scanFirst (matchKeyedAt "amount") line))

/-- The keyword cascade assigning a category to an accepted line. -/
def receiptCategory (line : List Char) : String :=
  let l := lowerList line
  let has : String → Bool := fun s => containsSub l s.toList
  if has "grocery" || has "market" || has "food" || has "supermarket" || has "store" then
    "Groceries"
  else if has "fuel" || has "gas" || has "petrol" || has "station" then "Fuel"
  else if has "pharmacy" || has "medicine" || has "drug" || has "health" then "Health"
  else if has "restaurant" || has "cafe" || has "dining" || has "food" then "Dining"
  else if has "transport" || has "taxi" || has "uber" || has "bus" then "Transportation"
  else if has "entertainment" || has "movie" || has "cinema" || has "game" then
    "Entertainment"
  else "Uncategorized"

/-- An extracted, not-yet-persisted transaction candidate. -/
structure Candidate where
  amount : ℚ
  category : String
  description : String
  date : Int
  type : TransactionType
deriving DecidableEq, Repr

/-- `extractTransactionsFromText` of the upload route: every line with
an accepted amount becomes one EXPENSE candidate dated `now`, described
by the (trimmed) line itself. -/
def extractTransactionsFromText (text : String) (now : Int) : List Candidate :=
  (linesOf text).filterMap fun line =>
    match amountFromPatterns line with
    | none => none
    | some amount =>
      some { amount := amount.toRat, category := receiptCategory line,
             description := String.mk line, date := now, type := .EXPENSE }

/-- Response data of an upload handler. -/
inductive UploadResponse
  | httpError
  | okImported (imported : Nat)
deriving DecidableEq, Repr

/-- Observable result of an upload handler: its response and the
`Transaction` rows it persists. -/
structure UploadResult where
  response : UploadResponse
  persisted : List Transaction
deriving DecidableEq, Repr

def candToTx (userId : String) (c : Candidate) : Transaction :=
  ⟨userId, c.type, c.amount, c.category, c.description, c.date⟩

/-- `POST /receipt` from the extracted text onward (lines 518–542): the
extracted candidates are persisted by the handler itself, in the same
request, with no confirmation step. -/
def receiptUpload (text : String) (now : Int) (userId : String) : UploadResult :=
  if trimList text.toList = [] then ⟨.httpError, []⟩
  else
    let items := extractTransactionsFromText text now
    if items = [] then ⟨.okImported 0, []⟩
    else ⟨.okImported items.length, items.map (candToTx userId)⟩

/-- The string fields returned by `parseStatementLine`. -/
structure StmtFields where
  date : String
  description : String
  category : String
  amount : String
  type : String
deriving DecidableEq, Repr

/-- Unanchored test of the substring shape `\d{4}[\-\/]\d{1,2}[\-\/]\d{1,2}`
(the date check of `parseStatementLine`). -/
def dateShapeAt (cs : List Char) : Bool :=
  (firstSome <| ([2, 1].map fun n2 =>
    firstSome <| ([2, 1].map fun n3 => do
      let (_, r1) ← takeDigitsN 4 cs
      let (_, r2) ← matchSep r1
      let (_, r3) ← takeDigitsN n2 r2
      let (_, r4) ← matchSep r3
      let (_, _) ← takeDigitsN n3 r4
      pure ()))).isSome

def testDateShape (cs : List Char) : Bool := scanTest dateShapeAt cs

/-- `parts.join(' ')`. -/
def joinSpace : List (List Char) → List Char
  | [] => []
  | [x] => x
  | x :: xs => x ++ ' ' :: joinSpace xs

/-- `line.trim().split(/\s+/).filter(Boolean)`. -/
def stmtTokens (line : String) : List (List Char) :=
  (splitWhen (isJsSpace ·) (trimList line.toList)).filter (· ≠ [])

/-- `parseStatementLine` of the upload route (lines 552–598). -/
def parseStatementLine (line : String) : Option StmtFields :=
  let parts := stmtTokens line
  if parts.length < 5 then none
  else
    let ty := upperList (parts.getD (parts.length - 1) [])
    if ¬ (ty = "INCOME".toList ∨ ty = "EXPENSE".toList) then none
    else
      let amount := parts.getD (parts.length - 2) []
      let cleanAmount := amount.filter (fun c => c.isDigit || c = '.' || c = '-')
      if (jsParseFloatList cleanAmount).isNone then none
      else
        let date := parts.getD 0 []
        if ¬ testDateShape date then none
        else
          let category := parts.getD (parts.length - 3) []
          let description := joinSpace ((parts.take (parts.length - 3)).drop 1)
          if description = [] then none
          else
            some ⟨String.mk date, String.mk description, String.mk category,
              String.mk cleanAmount, String.mk ty⟩

/-- A statement row after the per-line date/amount re-validation of the
`POST /statement` loop. -/
structure StmtTx where
  date : Int
  description : String
  category : String
  amount : ℚ
  type : TransactionType
deriving DecidableEq, Repr

/-- `result.type as TransactionType` (the parser guarantees the string
is `INCOME` or `EXPENSE`). -/
def stmtTypeOf (s : String) : TransactionType :=
  if s = "INCOME" then .INCOME else .EXPENSE

/-- The parse loop of `POST /statement` (lines 628–664): lines whose
`new Date(date)` or `parseFloat(amount)` is invalid are recorded as
errors and skipped; the rest are collected. -/
def statementParsed (text : String) : List StmtTx :=
  (linesOf text).filterMap fun line =>
    match parseStatementLine (String.mk line) with
    | none => none
    | some r =>
      match jsDateFromString r.date, jsParseFloatList r.amount.toList with
      | some d, some a => some ⟨d, r.description, r.category, a.toRat, stmtTypeOf r.type⟩
      | _, _ => none

def stmtToTx (userId : String) (s : StmtTx) : Transaction :=
  ⟨userId, s.type, s.amount, s.category, s.description, s.date⟩

/-- `POST /statement` from the extracted text onward (lines 615–700):
all successfully parsed rows are persisted by the handler itself, in the
same request, with no confirmation step; with no parsed row the handler
responds 400 and persists nothing. -/
def statementUpload (text : String) (userId : String) : UploadResult :=
  let parsed := statementParsed text
  if parsed = [] then ⟨.httpError, []⟩
  else ⟨.okImported parsed.length, parsed.map (stmtToTx userId)⟩

/-- A transaction object as returned by the external model for
`POST /ai-receipt`, with every field possibly absent (or of the wrong
shape, coerced below). -/
structure RawTx where
  date : Option String
  description : Option String
  category : Option String
  amount : Option ℚ
  type : Option String
deriving DecidableEq, Repr

/-- An AI-extracted candidate as returned to the user for review. -/
structure AiCandidate where
  date : String
  description : String
  category : String
  amount : ℚ
  type : TransactionType
deriving DecidableEq, Repr

/-- The defensive field coercion of `POST /ai-receipt` (lines 818–824):
missing date → today, missing description/category → defaults,
non-finite amount → 0, type constrained to {INCOME, EXPENSE} with
default EXPENSE. -/
def coerceRaw (todayIso : String) (t : RawTx) : AiCandidate :=
  { date := t.date.getD todayIso
    description := t.description.getD "Unknown"
    category := t.category.getD "Uncategorized"
    amount := t.amount.getD 0
    type := if t.type = some "INCOME" then .INCOME else .EXPENSE }

/-- `POST /ai-receipt` from the extracted text onward (lines 739–830):
`aiOut` is the array parsed from the external model's response (`none`:
missing text, AI failure or unparseable output, all reported as HTTP
errors).  The handler only returns the coerced candidates for user
review; it never persists anything. -/
def aiReceiptAnalyze (text : String) (todayIso : String)
    (aiOut : Option (List RawTx)) : Option (List AiCandidate) × List Transaction :=
  if trimList text.toList = [] then (none, [])
  else
    match aiOut with
    | none => (none, [])
    | some raw => (some (raw.map (coerceRaw todayIso)), [])

/-- A candidate submitted to `POST /ai-receipt/confirm`; the
`z.string().transform(s => new Date(s))` date field is modelled as the
resulting timestamp, the `z.enum(['INCOME','EXPENSE'])` type by typing. -/
structure ConfirmTx where
  date : Int
  description : String
  category : String
  amount : ℚ
  type : TransactionType
deriving DecidableEq, Repr

def confirmToTx (userId : String) (t : ConfirmTx) : Transaction :=
  ⟨userId, t.type, t.amount, t.category, t.description, t.date⟩

/-- `POST /ai-receipt/confirm` (lines 854–881): `confirmSchema` requires
every amount to be positive (`z.number().positive()`); a failing
`safeParse` rejects the whole batch with 400 and nothing is persisted,
otherwise every confirmed candidate is persisted verbatim. -/
def aiReceiptConfirm (body : List ConfirmTx) (userId : String) : UploadResult :=
  if body.all (fun t => decide (0 < t.amount)) then
    ⟨.okImported body.length, body.map (confirmToTx userId)⟩
  else ⟨.httpError, []⟩

/-- `POST /` of the transactions route (manual creation,
`routes/transactions.ts` lines 10–33): `createSchema` requires a
positive amount and a non-empty category. -/
def manualCreate (ty : TransactionType) (amount : ℚ) (category : String)
    (description : Option String) (date : Int) (userId : String) : UploadResult :=
  if decide (0 < amount) && decide (1 ≤ category.length) then
    ⟨.okImported 1, [⟨userId, ty, amount, category, description.getD "", date⟩]⟩
  else ⟨.httpError, []⟩

/-! ## Calendar-arithmetic lemmas -/

namespace JsDate

theorem daysFromCivil_day (y m d : Int) :
    daysFromCivil y m d = daysFromCivil y m 1 + (d - 1) := by
  unfold daysFromCivil
  split <;> ring

theorem mkDate_eq (y mIdx d h mi s ms : Int) :
    mkDate y mIdx d h mi s ms =
      (monthFirstDay (y * 12 + mIdx) + (d - 1)) * msPerDay
        + (h * 3600000 + mi * 60000 + s * 1000 + ms) := by
  simp only [mkDate, monthFirstDay]
  rw [daysFromCivil_day ((y * 12 + mIdx) / 12) ((y * 12 + mIdx) % 12 + 1) d]
  ring

theorem civil_day_ge_one (z : Int) : 1 ≤ (civilFromDays z).day := by
  simp only [civilFromDays, doyOfMp]
  omega

theorem getDate_ge_one (t : Int) : 1 ≤ getDate t := by
  unfold getDate civil
  exact civil_day_ge_one _

theorem monthFirstDay_step (n : Int) : monthFirstDay n < monthFirstDay (n + 1) := by
  unfold monthFirstDay daysFromCivil doyOfMp
  have h12 : n % 12 = 0 ∨ n % 12 = 1 ∨ n % 12 = 2 ∨ n % 12 = 3 ∨
      n % 12 = 4 ∨ n % 12 = 5 ∨ n % 12 = 6 ∨ n % 12 = 7 ∨
      n % 12 = 8 ∨ n % 12 = 9 ∨ n % 12 = 10 ∨ n % 12 = 11 := by omega
  rcases h12 with h | h | h | h | h | h | h | h | h | h | h | h <;>
    · have h' : (n + 1) % 12 = n % 12 + 1 ∨
          ((n) % 12 = 11 ∧ (n + 1) % 12 = 0) := by omega
      have h'' : (n + 1) / 12 = n / 12 ∨
          ((n) % 12 = 11 ∧ (n + 1) / 12 = n / 12 + 1) := by omega
      simp only [h]
      omega

theorem timeParts_eq (t : Int) :
    getHours t * 3600000 + getMinutes t * 60000 + getSeconds t * 1000
      + getMilliseconds t = timeOfDay t := by
  simp only [getHours, getMinutes, getSeconds, getMilliseconds, timeOfDay, msPerDay]
  omega

theorem timeOfDay_bounds (t : Int) : 0 ≤ timeOfDay t ∧ timeOfDay t < msPerDay := by
  simp only [timeOfDay, msPerDay]
  omega

theorem monthFirstDay_mono (n : Int) (k : Nat) :
    monthFirstDay n ≤ monthFirstDay (n + k) := by
  induction k with
  | zero => simp
  | succ i ih =>
    have h := monthFirstDay_step (n + i)
    have e : n + ((i + 1 : Nat) : Int) = (n + i) + 1 := by push_cast; ring
    rw [e]
    omega

end JsDate

/-- The sign of a decimal JS number is the sign of its numerator: the
`amount > 0` acceptance test of the heuristic line-scan is decided on
the exact decimal representation. -/
theorem JsNum.toRat_pos (x : JsNum) : 0 < x.toRat ↔ 0 < x.num := by
  have h : (0 : ℚ) < 10 ^ x.scale := by positivity
  rw [JsNum.toRat, div_pos_iff]
  constructor
  · rintro (⟨ha, _⟩ | ⟨_, hb⟩)
    · exact_mod_cast ha
    · exact absurd hb (not_lt.mpr h.le)
  · intro ha
    exact Or.inl ⟨by exact_mod_cast ha, h⟩

/-! ## Date-range ordering lemmas -/

theorem toStartOfDay_le_toEndOfDay (t : Int) : toStartOfDay t ≤ toEndOfDay t := by
  unfold toStartOfDay toEndOfDay
  rw [JsDate.mkDate_eq, JsDate.mkDate_eq]
  simp only [JsDate.msPerDay]
  omega

theorem setDate_sub_le_toEndOfDay (t k : Int) (hk : 0 ≤ k) :
    JsDate.setDate t (JsDate.getDate t - k) ≤ toEndOfDay t := by
  unfold JsDate.setDate toEndOfDay
  rw [JsDate.mkDate_eq, JsDate.mkDate_eq]
  have h1 := JsDate.timeParts_eq t
  have h2 := JsDate.timeOfDay_bounds t
  simp only [JsDate.msPerDay] at h2 ⊢
  omega

theorem firstOfMonth_le_toEndOfDay (t : Int) :
    JsDate.mkDate (JsDate.getFullYear t) (JsDate.getMonth t) 1 0 0 0 0 ≤ toEndOfDay t := by
  unfold toEndOfDay
  rw [JsDate.mkDate_eq, JsDate.mkDate_eq]
  have h := JsDate.getDate_ge_one t
  simp only [JsDate.msPerDay]
  omega

theorem prevMonth_le_monthEnd (t : Int) :
    JsDate.mkDate (JsDate.getFullYear t) (JsDate.getMonth t - 1) 1 0 0 0 0
      ≤ JsDate.mkDate (JsDate.getFullYear t) (JsDate.getMonth t) 0 23 59 59 999 := by
  rw [JsDate.mkDate_eq, JsDate.mkDate_eq]
  have h := JsDate.monthFirstDay_step (JsDate.getFullYear t * 12 + (JsDate.getMonth t - 1))
  have e : JsDate.getFullYear t * 12 + (JsDate.getMonth t - 1) + 1
      = JsDate.getFullYear t * 12 + JsDate.getMonth t := by ring
  rw [e] at h
  simp only [JsDate.msPerDay]
  omega

theorem janFirst_le_dec31 (y : Int) :
    JsDate.mkDate y 0 1 0 0 0 0 ≤ JsDate.mkDate y 11 31 23 59 59 999 := by
  rw [JsDate.mkDate_eq, JsDate.mkDate_eq]
  have h := JsDate.monthFirstDay_mono (y * 12 + 0) 11
  have e : y * 12 + 0 + ((11 : Nat) : Int) = y * 12 + 11 := by push_cast; ring
  rw [e] at h
  simp only [JsDate.msPerDay]
  omega

/-! ## Claim theorems -/

/-- **C9.** For every message string and every `now` timestamp,
`parseUserDateRange` returns either both a start and an end bound with
`end ≥ start`, or no bound at all (the all-time case); it never returns
exactly one bound. -/
theorem C9_daterange_invariant (message : String) (now : Int) :
    ((parseUserDateRange message now).start = none ∧
      (parseUserDateRange message now).stop = none) ∨
    ∃ s e, (parseUserDateRange message now).start = some s ∧
      (parseUserDateRange message now).stop = some e ∧ s ≤ e := by
  simp only [parseUserDateRange]
  split_ifs with h1 h2 h3 h4 h5 h6 h7
  · exact Or.inr ⟨_, _, rfl, rfl, toStartOfDay_le_toEndOfDay now⟩
  · exact Or.inr ⟨_, _, rfl, rfl, toStartOfDay_le_toEndOfDay _⟩
  · exact Or.inr ⟨_, _, rfl, rfl, setDate_sub_le_toEndOfDay now 7 (by norm_num)⟩
  · exact Or.inr ⟨_, _, rfl, rfl, firstOfMonth_le_toEndOfDay now⟩
  · exact Or.inr ⟨_, _, rfl, rfl, prevMonth_le_monthEnd now⟩
  · exact Or.inr ⟨_, _, rfl, rfl, janFirst_le_dec31 _⟩
  · exact Or.inr ⟨_, _, rfl, rfl, janFirst_le_dec31 _⟩
  · cases hft : findDateToken (lowerList message.toList) with
    | none => exact Or.inl ⟨rfl, rfl⟩
    | some raw =>
      dsimp only
      cases hd : (if isoShaped raw then jsDateFromString (String.mk raw)
          else explicitDateFromParts ((splitSeps raw).map jsParseIntDigits)) with
      | none => exact Or.inl ⟨rfl, rfl⟩
      | some dv => exact Or.inr ⟨_, _, rfl, rfl, toStartOfDay_le_toEndOfDay dv⟩

/-- **C4 (amended).** For every explicit slash/dash date token `a/b/c`
with a trailing 4-digit year `c`, the explicit-date branch interprets it
day-first iff the first numeric component `a > 12`, producing
`[startOfDay(d), endOfDay(d)]` with kind `specific_day` — so
`"7/10/2025"` resolves month-first to **July 10 2025** (`a = 7` is taken
as the month), and `"13/10/2025"` resolves day-first to October 13 2025. -/
theorem C4_explicit_date_rule (a b c : Int) (hc : 1000 ≤ c) (hc' : c ≤ 9999) :
    explicitDateFromParts [some a, some b, some c] =
      some (JsDate.mkDate c ((if a > 12 then b else a) - 1)
        (if a > 12 then a else b) 0 0 0 0) ∧
    parseUserDateRange "7/10/2025" 0 =
      ⟨some (toStartOfDay (JsDate.mkDate 2025 6 10 0 0 0 0)),
       some (toEndOfDay (JsDate.mkDate 2025 6 10 0 0 0 0)), some "specific_day"⟩ ∧
    JsDate.civil (JsDate.mkDate 2025 6 10 0 0 0 0) = ⟨2025, 7, 10⟩ ∧
    parseUserDateRange "13/10/2025" 0 =
      ⟨some (toStartOfDay (JsDate.mkDate 2025 9 13 0 0 0 0)),
       some (toEndOfDay (JsDate.mkDate 2025 9 13 0 0 0 0)), some "specific_day"⟩ ∧
    JsDate.civil (JsDate.mkDate 2025 9 13 0 0 0 0) = ⟨2025, 10, 13⟩ := by
  refine ⟨?_, by decide, by decide, by decide, by decide⟩
  simp only [explicitDateFromParts]
  split
  · rfl
  · exfalso; omega

theorem C4_explicit_date_rule_witness :
    (1000 ≤ (2025 : Int)) ∧ ((2025 : Int) ≤ 9999) ∧
    explicitDateFromParts [some 13, some 10, some 2025] =
      some (JsDate.mkDate 2025 9 13 0 0 0 0) := by
  refine ⟨by norm_num, by norm_num, ?_⟩
  have h := (C4_explicit_date_rule 13 10 2025 (by norm_num) (by norm_num)).1
  norm_num at h
  exact h

/-- **C4 (counterexample).** The claim's month-first example is wrong on
the code: `"7/10/2025"` resolves to July 10 2025 (month = 7), not to
October 7 2025. -/
theorem C4_counterexample :
    (parseUserDateRange "7/10/2025" 0).start.map JsDate.civil =
      some ⟨2025, 7, 10⟩ ∧
    (JsDate.Civil.mk 2025 7 10 ≠ JsDate.Civil.mk 2025 10 7) := by decide

/-- **C10 (counterexample).** The alias table does not have eleven
aliases onto nine categories. -/
theorem C10_counterexample :
    ¬ (categoryAliases.length = 11 ∧
       ((categoryAliases.map Prod.snd).dedup).length = 9) := by decide

/-- **C10 (amended).** The category-alias table contains exactly sixteen
input aliases mapping onto exactly ten canonical categories. -/
theorem C10_alias_table :
    categoryAliases.length = 16 ∧
    ((categoryAliases.map Prod.snd).dedup).length = 10 := by decide

/-- **C8.** The statement-line parser maps
`"2024-01-15 Coffee Shop Dining 12.50 EXPENSE"` to the expected record;
it returns no match for every line with fewer than 5 whitespace-separated
tokens; and it returns no match for every line whose last token is not
INCOME or EXPENSE case-insensitively. -/
theorem C8_statement_line :
    parseStatementLine "2024-01-15 Coffee Shop Dining 12.50 EXPENSE" =
      some ⟨"2024-01-15", "Coffee Shop", "Dining", "12.50", "EXPENSE"⟩ ∧
    (∀ line : String, (stmtTokens line).length < 5 → parseStatementLine line = none) ∧
    (∀ line : String,
      upperList ((stmtTokens line).getD ((stmtTokens line).length - 1) []) ≠
        "INCOME".toList →
      upperList ((stmtTokens line).getD ((stmtTokens line).length - 1) []) ≠
        "EXPENSE".toList →
      parseStatementLine line = none) := by
  refine ⟨by decide, ?_, ?_⟩
  · intro line h
    simp only [parseStatementLine]
    rw [if_pos h]
  · intro line h1 h2
    simp only [parseStatementLine]
    by_cases hlen : (stmtTokens line).length < 5
    · rw [if_pos hlen]
    · rw [if_neg hlen, if_pos (not_or.mpr ⟨h1, h2⟩)]

theorem C8_statement_line_witness :
    ((stmtTokens "a b c").length < 5 ∧ parseStatementLine "a b c" = none) ∧
    (upperList ((stmtTokens "2024-01-15 Coffee Shop Dining 12.50 TRANSFER").getD
        ((stmtTokens "2024-01-15 Coffee Shop Dining 12.50 TRANSFER").length - 1) []) ≠
      "INCOME".toList ∧
     parseStatementLine "2024-01-15 Coffee Shop Dining 12.50 TRANSFER" = none) :=
  ⟨⟨by decide, (C8_statement_line.2.1 "a b c" (by decide))⟩,
   ⟨by decide, (C8_statement_line.2.2 "2024-01-15 Coffee Shop Dining 12.50 TRANSFER"
      (by decide) (by decide))⟩⟩

/-- **C3 (code bug).** The tabular statement import persists
transactions with non-positive amounts: the line
`"2024-01-15 Refund Dining -12.50 EXPENSE"` is parsed (the `-` survives
the `[^0-9.\-]` cleaning and no positivity check exists on this path)
and persisted with amount `-12.50`, violating the positive-amount
invariant that the manual-create, receipt and confirmation paths
enforce. -/
theorem C3_statement_negative_amount :
    (statementUpload "2024-01-15 Refund Dining -12.50 EXPENSE" "u").persisted =
      [{ userId := "u", type := .EXPENSE, amount := JsNum.toRat ⟨-1250, 2⟩,
         category := "Dining", description := "Refund", date := 1705276800000 }] ∧
    JsNum.toRat ⟨-1250, 2⟩ = -25/2 ∧ ¬ (0 < (-25/2 : ℚ)) := by
  refine ⟨rfl, ?_, by norm_num⟩
  norm_num [JsNum.toRat]

/-! ## List helper lemmas -/

theorem dropWhile_nil_all (p : Char → Bool) :
    ∀ cs : List Char, cs.dropWhile p = [] → ∀ c ∈ cs, p c := by
  intro cs
  induction cs with
  | nil => simp
  | cons a as ih =>
    intro h c hc
    rw [List.dropWhile_cons] at h
    by_cases hp : p a
    · simp only [hp, if_true] at h
      rcases List.mem_cons.mp hc with rfl | hc'
      · exact hp
      · exact ih h c hc'
    · simp [hp] at h

theorem all_trimList_nil {cs : List Char} (h : ∀ c ∈ cs, isJsSpace c) :
    trimList cs = [] := by
  unfold trimList
  have h1 : cs.dropWhile (isJsSpace ·) = [] :=
    List.dropWhile_eq_nil_iff.mpr (fun c hc => h c hc)
  rw [h1]
  rfl

theorem trimList_nil_all {cs : List Char} (h : trimList cs = []) :
    ∀ c ∈ cs, isJsSpace c := by
  unfold trimList at h
  rw [List.reverse_eq_nil_iff, List.dropWhile_eq_nil_iff] at h
  intro c hc
  rcases List.mem_append.mp
      ((List.takeWhile_append_dropWhile (p := (isJsSpace ·)) (l := cs)) ▸ hc) with h1 | h1
  · exact List.mem_takeWhile_imp h1
  · exact h c (List.mem_reverse.mpr h1)

theorem splitWhen_mem (p : Char → Bool) :
    ∀ (cs piece : List Char) (c : Char),
      piece ∈ splitWhen p cs → c ∈ piece → c ∈ cs := by
  intro cs
  induction cs with
  | nil =>
    intro piece c hp hc
    simp only [splitWhen, List.mem_singleton] at hp
    subst hp
    simp at hc
  | cons a as ih =>
    intro piece c hp hc
    rw [splitWhen] at hp
    by_cases hpa : p a
    · rw [if_pos hpa] at hp
      rcases List.mem_cons.mp hp with rfl | hp'
      · simp at hc
      · exact List.mem_cons_of_mem _ (ih piece c hp' hc)
    · rw [if_neg hpa] at hp
      cases hsp : splitWhen p as with
      | nil =>
        rw [hsp] at hp
        have h1 : piece = [a] := by simpa using hp
        subst h1
        have h2 : c = a := by simpa using hc
        subst h2
        exact List.mem_cons_self _ _
      | cons t ts =>
        rw [hsp] at hp
        rcases List.mem_cons.mp hp with rfl | hp'
        · rcases List.mem_cons.mp hc with rfl | hc'
          · exact List.mem_cons_self _ _
          · exact List.mem_cons_of_mem _ (ih t c (hsp ▸ List.mem_cons_self t ts) hc')
        · exact List.mem_cons_of_mem _ (ih piece c (hsp ▸ List.mem_cons_of_mem t hp') hc)

/-- A whitespace-only text has no non-empty trimmed line. -/
theorem linesOf_ws (text : String) (h : trimList text.toList = []) :
    linesOf text = [] := by
  have hall := trimList_nil_all h
  unfold linesOf
  rw [List.filter_eq_nil_iff]
  intro piece hpiece
  simp only [List.mem_map] at hpiece
  obtain ⟨q, hq, rfl⟩ := hpiece
  have hq' : ∀ c ∈ q, isJsSpace c :=
    fun c hc => hall c (splitWhen_mem _ _ _ _ hq hc)
  simp [all_trimList_nil hq']

theorem expenseSum_drop_income (w : TxWhere) (store : List Transaction) :
    expenseSum w (store.filter (fun t => decide (t.type ≠ TransactionType.INCOME))) =
      expenseSum w store := by
  unfold expenseSum
  congr 1
  simp only [List.filter_filter]
  apply List.filter_congr
  intro t _
  cases h : t.type <;> simp [h]

/-! ## Remaining claim theorems -/

/-- **C1 (counterexample).** A receipt upload whose extracted text is
`"$12.34"` persists the extracted candidate inside the upload request
itself — the heuristic path offers no confirmation step at all, so a
candidate is persisted as a `Transaction` without any user
confirmation. -/
theorem C1_counterexample :
    (receiptUpload "$12.34" 0 "u").persisted =
      [{ userId := "u", type := .EXPENSE, amount := JsNum.toRat ⟨1234, 2⟩,
         category := "Uncategorized", description := "$12.34", date := 0 }] ∧
    (receiptUpload "$12.34" 0 "u").persisted ≠ [] := by
  have h : (receiptUpload "$12.34" 0 "u").persisted =
      [{ userId := "u", type := .EXPENSE, amount := JsNum.toRat ⟨1234, 2⟩,
         category := "Uncategorized", description := "$12.34", date := 0 }] := rfl
  refine ⟨h, ?_⟩
  rw [h]
  simp

/-- **C1 (amended).** Only the AI-receipt path holds candidates for
explicit user confirmation: its analyze endpoint persists nothing and
its confirm endpoint persists the confirmed batch (with positive
amounts enforced).  The heuristic receipt line-scan and the tabular
statement parser persist every extracted candidate immediately, in the
upload request itself, with no confirmation step. -/
theorem C1_upload_persistence (text : String) (now : Int) (uid todayIso : String)
    (aiOut : Option (List RawTx)) (body : List ConfirmTx) :
    (receiptUpload text now uid).persisted =
      (extractTransactionsFromText text now).map (candToTx uid) ∧
    (statementUpload text uid).persisted =
      (statementParsed text).map (stmtToTx uid) ∧
    (aiReceiptAnalyze text todayIso aiOut).2 = [] ∧
    ((∀ t ∈ body, 0 < t.amount) →
      (aiReceiptConfirm body uid).persisted = body.map (confirmToTx uid)) := by
  refine ⟨?_, ?_, ?_, ?_⟩
  · simp only [receiptUpload]
    split_ifs with h1 h2
    · have he : extractTransactionsFromText text now = [] := by
        unfold extractTransactionsFromText
        rw [linesOf_ws text h1]
        rfl
      rw [he]
      rfl
    · rw [h2]
      rfl
    · rfl
  · simp only [statementUpload]
    split_ifs with h1
    · rw [h1]
      rfl
    · rfl
  · simp only [aiReceiptAnalyze]
    split_ifs with h1
    · rfl
    · cases aiOut <;> rfl
  · intro hpos
    simp only [aiReceiptConfirm]
    rw [if_pos (List.all_eq_true.mpr (fun t ht => decide_eq_true (hpos t ht)))]

theorem C1_upload_persistence_witness :
    (aiReceiptConfirm [⟨0, "d", "Dining", 5, .EXPENSE⟩] "u").persisted =
      ([⟨0, "d", "Dining", 5, .EXPENSE⟩] : List ConfirmTx).map (confirmToTx "u") := by
  apply (C1_upload_persistence "x" 0 "u" "t" none _).2.2.2
  intro t ht
  simp only [List.mem_singleton] at ht
  subst ht
  norm_num

/-- **C2 (counterexample).** With the AI credential missing, a chat
query matching the SumTotal intent does not succeed with a local reply:
the credential check precedes the local-intent branch, so the handler
fails with the configuration error even though the intent matches. -/
theorem C2_counterexample :
    detectIntent "how much did i spend" = some .sum_total ∧
    queryHandler false (fun _ => ⟨200⟩) "how much did i spend" 0 [] "u" 0 =
      (.configError, 0) := by
  constructor
  · decide
  · rfl

/-- **C2 (amended).** A chat query matching one of the five recognized
intents issues no AI request and, when the AI credential is configured,
succeeds with the locally computed reply; but when the credential is
missing, the same query fails with a configuration error (the
`GEMINI_API_KEY` check runs before the local-intent branch), so local
queries do **not** succeed irrespective of the credential. -/
theorem C2_local_intents (message : String) (now : Int) (store : List Transaction)
    (uid : String) (budget : ℚ) (oracle : Nat → FetchResult) (intent : Intent)
    (h : detectIntent message = some intent) :
    queryHandler true oracle message now store uid budget =
      (.localReply (localAnswer intent message now store uid budget), 0) ∧
    queryHandler false oracle message now store uid budget = (.configError, 0) := by
  have hne : message ≠ "" := by
    intro he
    rw [he] at h
    have h0 : detectIntent "" = none := by decide
    rw [h0] at h
    exact Option.noConfusion h
  constructor
  · simp only [queryHandler, if_neg hne, Bool.not_true, Bool.false_eq_true, if_false, h]
  · simp only [queryHandler, if_neg hne, Bool.not_false, if_true]

theorem C2_local_intents_witness :
    detectIntent "how much did i spend on food" = some (Intent.sum_category "Dining") ∧
    queryHandler true (fun _ => ⟨200⟩) "how much did i spend on food" 0 [] "u" 0 =
      (.localReply (localAnswer (.sum_category "Dining")
        "how much did i spend on food" 0 [] "u" 0), 0) := by
  have h : detectIntent "how much did i spend on food" =
      some (Intent.sum_category "Dining") := by decide
  exact ⟨h, (C2_local_intents _ 0 [] "u" 0 (fun _ => ⟨200⟩) _ h).1⟩

/-- **C5.** The SumCategory and SumTotal local answers report exactly
the sum of the matching EXPENSE-type amounts, and INCOME rows contribute
nothing: the answers are unchanged when every INCOME row is removed from
the store (in particular for stores containing both INCOME and EXPENSE
rows in range). -/
theorem C5_sum_ignores_income (store : List Transaction) (message : String)
    (now : Int) (uid : String) (budget : ℚ) (cat : String) :
    localAnswer (.sum_category cat) message now store uid budget =
      .sumCategoryReply cat
        (sumAmounts ((store.filter
            (txMatches (intentWhere (.sum_category cat)
              (parseUserDateRange message now) uid))).filter
          (fun t => decide (t.type = TransactionType.EXPENSE))))
        (rangeLabelOf (parseUserDateRange message now)) ∧
    localAnswer .sum_total message now store uid budget =
      .sumTotalReply
        (sumAmounts ((store.filter
            (txMatches (intentWhere .sum_total
              (parseUserDateRange message now) uid))).filter
          (fun t => decide (t.type = TransactionType.EXPENSE))))
        (rangeLabelOf (parseUserDateRange message now)) ∧
    localAnswer (.sum_category cat) message now store uid budget =
      localAnswer (.sum_category cat) message now
        (store.filter (fun t => decide (t.type ≠ TransactionType.INCOME))) uid budget ∧
    localAnswer .sum_total message now store uid budget =
      localAnswer .sum_total message now
        (store.filter (fun t => decide (t.type ≠ TransactionType.INCOME))) uid budget := by
  refine ⟨rfl, rfl, ?_, ?_⟩
  · simp only [localAnswer]
    rw [expenseSum_drop_income]
  · simp only [localAnswer]
    rw [expenseSum_drop_income]

/-- **C6.** With stored `monthlyBudget = 0` and any month-to-date spend
`≥ 0`, the BudgetSurvivability answer takes the "haven't set a budget"
branch: it reports only the amount spent so far and carries no
survivability verdict. -/
theorem C6_zero_budget (message : String) (now : Int) (store : List Transaction)
    (uid : String) (_hspend : 0 ≤ (monthlyStats now store uid 0).spent) :
    localAnswer .budget_survivability message now store uid 0 =
      .budgetNoBudget ((monthlyStats now store uid 0).spent) := by
  simp only [localAnswer]
  rw [if_neg (lt_irrefl (0 : ℚ))]

theorem C6_zero_budget_witness :
    (0 ≤ (monthlyStats 0 [] "u" 0).spent) ∧
    localAnswer .budget_survivability "can i survive this month" 0 [] "u" 0 =
      .budgetNoBudget ((monthlyStats 0 [] "u" 0).spent) := by
  have h : 0 ≤ (monthlyStats 0 [] "u" 0).spent := by
    show (0 : ℚ) ≤ sumAmounts []
    simp [sumAmounts]
  exact ⟨h, C6_zero_budget "can i survive this month" 0 [] "u" h⟩

/-- **C7.** In the AI fallback, exactly one retry is attempted iff the
first response signals transient overload (non-ok status 503); for any
other failure zero retries are attempted; and a non-ok final response
(a failure repeated after the retry, or any non-overload failure) is
surfaced as the fatal request error. -/
theorem C7_retry (oracle : Nat → FetchResult) (message : String) (now : Int)
    (store : List Transaction) (uid : String) (budget : ℚ)
    (hmsg : message ≠ "") (hint : detectIntent message = none) :
    ((aiFetchRetry oracle).2 - 1 = 1 ↔
      (fetchOk (oracle 0) = false ∧ (oracle 0).status = 503)) ∧
    ((aiFetchRetry oracle).2 - 1 = 0 ↔
      ¬ (fetchOk (oracle 0) = false ∧ (oracle 0).status = 503)) ∧
    ((fetchOk (oracle 0) = false ∧ (oracle 0).status = 503) →
      aiFetchRetry oracle = (oracle 1, 2)) ∧
    (fetchOk (oracle 0) = false → (oracle 0).status ≠ 503 →
      aiFetchRetry oracle = (oracle 0, 1) ∧
      queryHandler true oracle message now store uid budget = (.aiFailed, 1)) ∧
    (fetchOk (aiFetchRetry oracle).1 = false →
      queryHandler true oracle message now store uid budget =
        (.aiFailed, (aiFetchRetry oracle).2)) := by
  have hq : queryHandler true oracle message now store uid budget =
      (if !(fetchOk (aiFetchRetry oracle).1) then (.aiFailed, (aiFetchRetry oracle).2)
       else (.aiSuccess (aiFetchRetry oracle).1, (aiFetchRetry oracle).2)) := by
    simp only [queryHandler, if_neg hmsg, Bool.not_true, Bool.false_eq_true, if_false, hint]
  by_cases h503 : (!(fetchOk (oracle 0)) && decide ((oracle 0).status = 503)) = true
  · have hr : aiFetchRetry oracle = (oracle 1, 2) := by
      simp only [aiFetchRetry]
      rw [if_pos h503]
    rw [Bool.and_eq_true, Bool.not_eq_true'] at h503
    obtain ⟨hok, hst⟩ := h503
    have hst' : (oracle 0).status = 503 := of_decide_eq_true hst
    refine ⟨?_, ?_, fun _ => hr, ?_, ?_⟩
    · simp [hr, hok, hst']
    · simp [hr, hok, hst']
    · intro _ hne
      exact absurd hst' hne
    · intro hfail
      rw [hq, hr]
      rw [hr] at hfail
      simp [hfail]
  · have hr : aiFetchRetry oracle = (oracle 0, 1) := by
      simp only [aiFetchRetry]
      rw [if_neg h503]
    rw [Bool.and_eq_true, Bool.not_eq_true'] at h503
    push_neg at h503
    refine ⟨?_, ?_, ?_, ?_, ?_⟩
    · simp only [hr]
      constructor
      · intro h
        exact absurd h (by norm_num)
      · intro ⟨hok, hst⟩
        exact absurd (decide_eq_true hst) (h503 hok)
    · simp only [hr]
      constructor
      · intro _ ⟨hok, hst⟩
        exact absurd (decide_eq_true hst) (h503 hok)
      · intro _
        trivial
    · intro ⟨hok, hst⟩
      exact absurd (decide_eq_true hst) (h503 hok)
    · intro hok _
      refine ⟨hr, ?_⟩
      rw [hq, hr]
      simp [hok]
    · intro hfail
      rw [hq]
      rw [hr] at hfail ⊢
      simp [hfail]

theorem C7_retry_witness :
    ("hello" : String) ≠ "" ∧ detectIntent "hello" = none ∧
    (aiFetchRetry (fun n => if n = 0 then ⟨503⟩ else ⟨503⟩)).2 - 1 = 1 ∧
    queryHandler true (fun n => if n = 0 then ⟨503⟩ else ⟨503⟩) "hello" 0 [] "u" 0 =
      (.aiFailed, 2) := by
  have h1 : ("hello" : String) ≠ "" := by decide
  have h2 : detectIntent "hello" = none := by decide
  have h := C7_retry (fun n => if n = 0 then ⟨503⟩ else ⟨503⟩) "hello" 0 [] "u" 0 h1 h2
  refine ⟨h1, h2, ?_, ?_⟩
  · exact h.1.mpr ⟨by decide, by decide⟩
  · have := h.2.2.2.2 (by decide)
    simpa using this
